import Mathlib

/-!
Verification development for the go-tado client library.

This file gives a shallow embedding of the library's core transport layer
(`tado/tado.go`: `Client.NewRequest`, `Client.bareDo`, `Client.BareDo`,
`Client.Do`, `NewClient`/`Client.initialize`) together with the `User`
body type from `tado/user.go`, and proves the specified properties about
these definitions.

Conventions of the embedding:
- Go strings are Lean `String`s; byte-level details that the library never
  exercises (invalid UTF-8) are out of scope.
- Fallible Go functions returning `(T, error)` become `Except GoError T`
  or a result structure with an `Option GoError` field.
- `nil` pointers/interfaces become `Option`.
- A Go `panic` during client construction is a distinct `InitOutcome`
  constructor, separate from any returned value.
- External collaborators (net/http's transport, encoding/json's decoder)
  are modelled at their documented interface boundary and passed in as
  function parameters where the Go code receives them as values.
-/

namespace Tado

/-! ### String primitives (models of Go's `strings` package helpers) -/

/-- Structural prefix test on character lists (semantics of
`List.isPrefixOf`, restated so it reduces on a variable tail). -/
def listIsPre : List Char → List Char → Bool
  | [], _ => true
  | _ :: _, [] => false
  | a :: as, b :: bs => a == b && listIsPre as bs

/-- Model of Go `strings.HasPrefix s pre`. -/
def strStarts (s pre : String) : Bool := listIsPre pre.data s.data

/-- Model of Go `strings.HasSuffix s suf`. -/
def strEnds (s suf : String) : Bool := listIsPre suf.data.reverse s.data.reverse

/-- Drop the first `n` characters of a string. -/
def strDrop (s : String) (n : Nat) : String := String.mk (s.data.drop n)

/-- Model of Go `strings.TrimPrefix s pre`: remove `pre` from the front of
`s` exactly once, when present. -/
def trimLead (s pre : String) : String :=
  if strStarts s pre then strDrop s pre.length else s

/-! ### URL model (the fragment of net/url the client uses) -/

/-- The components of a parsed URL that the client reads or writes:
scheme, host and path.  Query, fragment and userinfo are never produced
or inspected by the request builder and are not modelled. -/
structure URL where
  scheme : String
  host : String
  path : String
deriving Repr, DecidableEq

/-- Model of Go `(*url.URL).String()` restricted to the modelled
components: `scheme:` then `//host` then the path. -/
def urlString (u : URL) : String :=
  (if u.scheme = "" then "" else u.scheme ++ ":")
    ++ (if u.host = "" then "" else "//" ++ u.host) ++ u.path

/-- Split a character list at the first slash: the part before it and the
rest starting with the slash (empty if there is no slash). -/
def splitAtFirstSlash : List Char → List Char × List Char
  | [] => ([], [])
  | c :: cs =>
    if c = '/' then ([], c :: cs)
    else
      let p := splitAtFirstSlash cs
      (c :: p.1, p.2)

/-- Split a character list around the first occurrence of the scheme
marker `://`: the part before it and the part after it. -/
def splitSchemeMark : List Char → Option (List Char × List Char)
  | [] => none
  | ':' :: '/' :: '/' :: rest => some ([], rest)
  | c :: cs => (splitSchemeMark cs).map (fun p => (c :: p.1, p.2))

/-- Everything up to and including the last slash of a path (empty when
the path has no slash).  This is the RFC 3986 path-merge base. -/
def upToLastSlash (l : List Char) : List Char :=
  ((l.reverse.dropWhile (fun c => c != '/'))).reverse

/-! ### Errors -/

/-- The two values `context.Context.Err` can take once the context is
done. -/
inductive CtxErr where
  | canceled
  | deadlineExceeded
deriving Repr, DecidableEq

/-- The error values the modelled code paths can produce. -/
inductive GoError where
  /-- `fmt.Errorf("BaseURL must have a trailing slash, but %q does not", c.BaseURL)` -/
  | baseURLTrailingSlash (base : String)
  /-- error returned by `url.Parse` / `(*url.URL).Parse` on a malformed reference -/
  | urlParseError (ref : String)
  /-- error returned by `json.Encoder.Encode` on an unsupported body value -/
  | jsonEncodeError (msg : String)
  /-- error returned by `http.NewRequest` on an invalid method -/
  | badMethod (m : String)
  /-- `ErrNonNilContext = errors.New("context must not be nil")` -/
  | errNonNilContext
  /-- `ctx.Err()` of a done context -/
  | ctxError (k : CtxErr)
  /-- a `*url.Error` surfaced from the transport (operation, URL text, message) -/
  | urlError (op u msg : String)
  /-- any other transport-level error -/
  | transportError (msg : String)
  /-- error returned by `json.Decoder.Decode` on a malformed body -/
  | decodeError (msg : String)
  /-- error returned by `io.Copy` into a raw sink -/
  | copyError (msg : String)
  /-- a Go nil-pointer dereference panic value -/
  | nilDereference
deriving Repr, DecidableEq

/-- Equality of `Except` results is decidable when both component types
have decidable equality (used to evaluate claims on concrete inputs). -/
instance {ε α : Type} [DecidableEq ε] [DecidableEq α] : DecidableEq (Except ε α) := fun a b =>
  match a, b with
  | Except.error e, Except.error f =>
    if h : e = f then isTrue (congrArg Except.error h)
    else isFalse (fun hh => h (by injection hh))
  | Except.error _, Except.ok _ => isFalse (fun hh => Except.noConfusion hh)
  | Except.ok _, Except.error _ => isFalse (fun hh => Except.noConfusion hh)
  | Except.ok x, Except.ok y =>
    if h : x = y then isTrue (congrArg Except.ok h)
    else isFalse (fun hh => h (by injection hh))

/-! ### URL parsing and reference resolution -/

/-- Shallow model of Go `url.Parse` on a full URL string, as used by
`bareDo` to re-render the URL carried by a `*url.Error`.  A string whose
first character is `:` has an empty scheme and fails (Go: "missing
protocol scheme"); a string containing `://` splits into scheme, host
and path; anything else parses as a bare relative path. -/
def parseURL (s : String) : Option URL :=
  if strStarts s ":" then none
  else
    match splitSchemeMark s.data with
    | some (sch, rest) =>
      let hp := splitAtFirstSlash rest
      some { scheme := String.mk sch, host := String.mk hp.1, path := String.mk hp.2 }
    | none => some { scheme := "", host := "", path := s }

/-- Shallow model of Go `(*url.URL).Parse`: parse `ref` and resolve it
against `base` per RFC 3986.  The cases are: leading `:` fails; empty
reference yields the base; a reference with its own `://` is absolute; a
`//` reference replaces the authority; a leading-slash reference replaces
the base path; anything else merges with the base path (everything up to
the base path's last slash, then the reference).  Dot-segment
normalization is not modelled: the references this client builds contain
no dot segments, and the properties proved below never depend on it. -/
def urlResolve (base : URL) (ref : String) : Except GoError URL :=
  if strStarts ref ":" then Except.error (GoError.urlParseError ref)
  else if ref = "" then Except.ok base
  else
    match splitSchemeMark ref.data with
    | some (sch, rest) =>
      let hp := splitAtFirstSlash rest
      Except.ok { scheme := String.mk sch, host := String.mk hp.1, path := String.mk hp.2 }
    | none =>
      if strStarts ref "//" then
        let hp := splitAtFirstSlash (ref.data.drop 2)
        Except.ok { scheme := base.scheme, host := String.mk hp.1, path := String.mk hp.2 }
      else if strStarts ref "/" then
        Except.ok { base with path := ref }
      else
        Except.ok { base with path := String.mk (upToLastSlash base.path.data) ++ ref }

/-! ### Requests and the request builder -/

/-- The parts of an `http.Request` the library constructs: method,
resolved URL, serialized body bytes (absent when no body value was
supplied) and headers. -/
structure Request where
  method : String
  url : URL
  body : Option String
  headers : List (String × String)
deriving Repr, DecidableEq

/-- Model of Go `http.Header.Set`: replace the value of an existing key,
otherwise append the pair. -/
def headerSet (hs : List (String × String)) (k v : String) : List (String × String) :=
  if hs.any (fun p => p.1 == k) then hs.map (fun p => if p.1 == k then (k, v) else p)
  else hs ++ [(k, v)]

/-- The non-alphanumeric characters allowed in an HTTP method token
(RFC 7230), as checked by `http.NewRequest`.  The list includes the
single-quote and backtick characters, written by code point. -/
def methodExtraChars : List Char :=
  ['!', '#', '$', '%', '&', '*', '+', '-', '.', '^', '_', '|', '~',
   Char.ofNat 39, Char.ofNat 96]

def isTokenChar (c : Char) : Bool := c.isAlpha || c.isDigit || methodExtraChars.contains c

/-- Model of net/http's `validMethod`: nonempty and all token characters. -/
def validMethod (m : String) : Bool := !(m == "") && m.data.all isTokenChar

/-- The client configuration read by `NewRequest`: base URL and user
agent. -/
structure Client where
  baseURL : URL
  userAgent : String
deriving Repr, DecidableEq

/-- Shallow embedding of `Client.NewRequest` (tado/tado.go).  The body
value of Go type `interface{}` is an `Option β` together with `encode`,
the JSON serialization for `β` (standing for `json.Encoder` with
`SetEscapeHTML(false)`; its output includes the trailing newline
`Encode` appends).  Steps, in source order: require a trailing slash on
the base URL path; resolve `strings.TrimPrefix(path, "/")` against the
base; serialize the body if present; validate the method
(`http.NewRequest`, empty method meaning GET); set the Content-Type
(body only), Accept and User-Agent headers; apply the caller's request
options last. -/
def NewRequest {β : Type} (encode : β → Except GoError String) (c : Client)
    (method path : String) (body : Option β)
    (opts : List (Request → Request)) : Except GoError Request := do
  if strEnds c.baseURL.path "/" = false then
    throw (GoError.baseURLTrailingSlash (urlString c.baseURL))
  let u ← urlResolve c.baseURL (trimLead path "/")
  let buf : Option String ←
    match body with
    | none => pure none
    | some b => do
        let s ← encode b
        pure (some s)
  let m := if method = "" then "GET" else method
  if validMethod m = false then
    throw (GoError.badMethod m)
  let req0 : Request := { method := m, url := u, body := buf, headers := [] }
  let req1 :=
    if buf.isSome then
      { req0 with headers := headerSet req0.headers "Content-Type" "application/json" }
    else req0
  let req2 := { req1 with headers := headerSet req1.headers "Accept" "application/json" }
  let req3 :=
    if c.userAgent ≠ "" then
      { req2 with headers := headerSet req2.headers "User-Agent" c.userAgent }
    else req2
  pure (opts.foldl (fun r o => o r) req3)

/-- `url.Parse DefaultBaseURL` with `DefaultBaseURL = "https://my.tado.com/api/v2/"`. -/
def defaultBaseURL : URL := { scheme := "https", host := "my.tado.com", path := "/api/v2/" }

def DefaultUserAgent : String := "go-tado"

/-- A client with the default base URL and user agent, as produced by
`Client.initialize` when nothing is overridden. -/
def defaultClient : Client := { baseURL := defaultBaseURL, userAgent := DefaultUserAgent }

/-! ### Helper lemmas about `trimLead` -/

theorem trimLead_of_not_starts (p : String) (h : strStarts p "/" = false) :
    trimLead p "/" = p := by
  simp [trimLead, h]

theorem trimLead_slash_append (p : String) : trimLead ("/" ++ p) "/" = p := by
  cases p with
  | mk l => rfl

/-! ### Context, transport and the dispatcher (`bareDo` / `BareDo`) -/

/-- The observable state of a `context.Context` at the moment `bareDo`
inspects it: whether `ctx.Done()` is closed, and which error `ctx.Err()`
reports when it is.  A Go `nil` context is `Option.none` at the use
site. -/
structure Ctx where
  done : Bool
  errKind : CtxErr
deriving Repr, DecidableEq

/-- The parts of an `*http.Response` the modelled code reads: the status
code and the body bytes. -/
structure HTTPResponse where
  statusCode : Nat
  body : String
deriving Repr, DecidableEq

/-- `Response` wraps the raw `http.Response` (`newResponse`). -/
structure Response where
  response : HTTPResponse
deriving Repr, DecidableEq

def newResponse (r : HTTPResponse) : Response := ⟨r⟩

/-- An error returned by `(*http.Client).Do`: either a `*url.Error`
(with operation, URL text and underlying message) or any other error. -/
inductive TransportErr where
  | urlErr (op u msg : String)
  | other (msg : String)
deriving Repr, DecidableEq

/-- The `(res *http.Response, err error)` pair returned by
`(*http.Client).Do`. -/
structure TransportResult where
  res : Option HTTPResponse
  err : Option TransportErr
deriving Repr, DecidableEq

/-- The URL re-rendering `bareDo` performs on a `*url.Error`: parse
`e.URL`; on success replace it with the re-rendered text and return the
same error; if parsing fails, the error is returned unchanged.  Other
errors are surfaced as-is. -/
def normalizeTransportErr (e : TransportErr) : GoError :=
  match e with
  | TransportErr.urlErr op u msg =>
    match parseURL u with
    | some u2 => GoError.urlError op (urlString u2) msg
    | none => GoError.urlError op u msg
  | TransportErr.other msg => GoError.transportError msg

/-- The outcome of `Client.bareDo`: the wrapped response (nil-able), the
error (nil-able), and whether the underlying HTTP caller was invoked at
all (instrumentation for the no-I/O properties; in the source the call
`caller.Do(req)` is the only I/O). -/
structure BareDoResult where
  response : Option Response
  err : Option GoError
  callerInvoked : Bool
deriving Repr, DecidableEq

/-- Shallow embedding of `Client.bareDo` (tado/tado.go).  The
`caller : Request → TransportResult` parameter is the `*http.Client`
passed in by the source (`caller.Do`).  In source order: a nil context
returns `ErrNonNilContext` before any call; otherwise the caller runs
and a non-nil raw response is wrapped; on a caller error, a done context
(the non-blocking `select` on `ctx.Done()`) returns `nil, ctx.Err()`,
and otherwise the error is surfaced after `*url.Error` URL
re-rendering; with no caller error the wrapped response is returned with
a nil error. -/
def bareDo (ctx : Option Ctx) (caller : Request → TransportResult)
    (req : Request) : BareDoResult :=
  match ctx with
  | none =>
    { response := none, err := some GoError.errNonNilContext, callerInvoked := false }
  | some ctx =>
    let tr := caller req
    let response := tr.res.map newResponse
    match tr.err with
    | some e =>
      if ctx.done then
        { response := none, err := some (GoError.ctxError ctx.errKind),
          callerInvoked := true }
      else
        { response := response, err := some (normalizeTransportErr e),
          callerInvoked := true }
    | none => { response := response, err := none, callerInvoked := true }

/-- `Client.BareDo(ctx, req)` is `bareDo(ctx, c.client, req)`; the
client's authenticated `http.Client` is the explicit `caller` here. -/
def BareDo (ctx : Option Ctx) (caller : Request → TransportResult)
    (req : Request) : BareDoResult :=
  bareDo ctx caller req

/-! ### Response decoding (`Do`) -/

/-- The decode target `v` of `Client.Do`, as its type switch sees it:
Go `nil`, an `io.Writer` (whose copy behaviour is the `copyErr`
parameter: `none` means `io.Copy` succeeds, `some msg` that it fails),
or any other (typed) value. -/
inductive DecodeTarget where
  | nilTarget
  | writer (copyErr : Option String)
  | typed
deriving Repr, DecidableEq

/-- Outcome of a `json.Decoder.Decode` call. -/
inductive DecodeOutcome (α : Type) where
  | ok (a : α)
  | eofReached
  | failed (msg : String)
deriving Repr, DecidableEq

/-- Interface model of `json.NewDecoder(body).Decode(v)` on the full
body: an empty stream yields `io.EOF` before any parsing, for every
target type; otherwise `parse`, the JSON parse for the target type,
decides the outcome. -/
def jsonDecoderDecode {α : Type} (parse : String → Except String α)
    (body : String) : DecodeOutcome α :=
  if body = "" then DecodeOutcome.eofReached
  else
    match parse body with
    | Except.ok a => DecodeOutcome.ok a
    | Except.error msg => DecodeOutcome.failed msg

/-- The outcome of `Client.Do`: the returned response and error, the
number of times `res.Body.Close()` ran, and the final value of the
typed decode target (initially its zero value `v0`). -/
structure DoResult (α : Type) where
  response : Option Response
  err : Option GoError
  bodyCloses : Nat
  target : α
deriving Repr, DecidableEq

/-- Shallow embedding of `Client.Do` (tado/tado.go).  On a `BareDo`
error the response and error are returned as-is (the `defer
res.Body.Close()` is not yet armed: zero closes).  Otherwise the
deferred close runs exactly once on every exit path while the type
switch on `v` discards the body (`nil`), streams it into the writer
(`io.Copy`), or JSON-decodes it into the typed target — where an
`io.EOF` from an empty body is deliberately dropped.  The
`response = none, err = none` transport outcome is unreachable under the
`http.Client` contract (a nil error implies a non-nil response); the Go
code would dereference nil there, and the embedding returns without a
close. -/
def Do {α : Type} (parse : String → Except String α) (ctx : Option Ctx)
    (caller : Request → TransportResult) (req : Request)
    (v : DecodeTarget) (v0 : α) : DoResult α :=
  let b := BareDo ctx caller req
  match b.err with
  | some e => { response := b.response, err := some e, bodyCloses := 0, target := v0 }
  | none =>
    match b.response with
    | none => { response := none, err := none, bodyCloses := 0, target := v0 }
    | some res =>
      match v with
      | DecodeTarget.nilTarget =>
        { response := some res, err := none, bodyCloses := 1, target := v0 }
      | DecodeTarget.writer copyErr =>
        { response := some res, err := copyErr.map GoError.copyError,
          bodyCloses := 1, target := v0 }
      | DecodeTarget.typed =>
        match jsonDecoderDecode parse res.response.body with
        | DecodeOutcome.ok a =>
          { response := some res, err := none, bodyCloses := 1, target := a }
        | DecodeOutcome.eofReached =>
          { response := some res, err := none, bodyCloses := 1, target := v0 }
        | DecodeOutcome.failed msg =>
          { response := some res, err := some (GoError.decodeError msg),
            bodyCloses := 1, target := v0 }

/-! ### The `User` body type and its JSON serialization (tado/user.go)

`Client.NewRequest` serializes body values with a `json.Encoder` whose
HTML escaping is disabled (`enc.SetEscapeHTML(false)`).  The encoding of
the `User` struct is modelled field by field from the struct's
declaration: every field carries a plain `json:"..."` tag with no
`omitempty`, so every field is always emitted, in declaration order. -/

def hexDigit (n : Nat) : Char :=
  if n < 10 then Char.ofNat (48 + n) else Char.ofNat (87 + n)

/-- Per-character JSON string escaping as Go's `encoding/json` performs
it with HTML escaping disabled: quote, backslash and control characters
are escaped (plus U+2028/U+2029); `<`, `>` and `&` pass through
unescaped. -/
def jsonEscapeChar (c : Char) : String :=
  if c = '"' then "\\\""
  else if c = '\\' then "\\\\"
  else if c = Char.ofNat 10 then "\\n"
  else if c = Char.ofNat 13 then "\\r"
  else if c = Char.ofNat 9 then "\\t"
  else if c.toNat < 32 then
    String.mk ['\\', 'u', '0', '0', hexDigit (c.toNat / 16), hexDigit (c.toNat % 16)]
  else if c.toNat = 8232 || c.toNat = 8233 then
    String.mk ['\\', 'u', '2', '0', '2', hexDigit (c.toNat % 16)]
  else String.singleton c

def jsonQuote (s : String) : String :=
  "\"" ++ String.join (s.data.map jsonEscapeChar) ++ "\""

/-- The anonymous element struct of `User.Homes`:
`struct { ID int; Name string }` with tags `json:"id"`, `json:"name"`. -/
structure UserHome where
  id : Int
  name : String
deriving Repr, DecidableEq

/-- The `User` struct of tado/user.go.  A nil `Homes` slice is `none`
(it marshals as JSON `null`), a non-nil slice is `some` of its
elements. -/
structure User where
  name : String
  email : String
  username : String
  id : String
  homes : Option (List UserHome)
  locale : String
deriving Repr, DecidableEq

def marshalUserHome (h : UserHome) : String :=
  "\x7b\"id\":" ++ toString h.id ++ ",\"name\":" ++ jsonQuote h.name ++ "\x7d"

def marshalHomes (hs : Option (List UserHome)) : String :=
  match hs with
  | none => "null"
  | some l => "[" ++ String.intercalate "," (l.map marshalUserHome) ++ "]"

/-- `json.Marshal` of a `User` value: all six fields in declaration
order under their tag names (no `omitempty` on any field). -/
def marshalUser (u : User) : String :=
  "\x7b\"name\":" ++ jsonQuote u.name
    ++ ",\"email\":" ++ jsonQuote u.email
    ++ ",\"username\":" ++ jsonQuote u.username
    ++ ",\"id\":" ++ jsonQuote u.id
    ++ ",\"homes\":" ++ marshalHomes u.homes
    ++ ",\"locale\":" ++ jsonQuote u.locale
    ++ "\x7d"

/-- `json.Encoder.Encode` of a `User` body: the marshalled object plus
the newline `Encode` appends.  Encoding a `User` never fails (none of
its field types is unsupported). -/
def encodeUser (u : User) : Except GoError String :=
  Except.ok (marshalUser u ++ "\n")

/-! ### Client construction (`NewClient` / `Client.initialize`) -/

/-- A token source, kept abstract: the client only stores it. -/
structure TokenSource where
  tag : Nat
deriving Repr, DecidableEq

/-- The authenticated `http.Client` built by `oauth2.NewClient` from a
token source. -/
inductive HClient where
  | fromTokenSource (t : TokenSource)
deriving Repr, DecidableEq

/-- The result of running a constructor: either a client value, or a Go
`panic` carrying the panicking value.  `NewClient` has no error result:
its only Go return type is `*Client`. -/
inductive InitOutcome (α : Type) where
  | ok (c : α)
  | panicked (e : GoError)
deriving Repr

/-- The client record as `NewClient`/`initialize` build it.  The
authenticator is modelled by the outcome of its single
`TokenSource(ctx)` call (the only way the constructor uses it); a Go
nil authenticator is `none`. -/
structure ClientPre where
  authenticator : Option (Except GoError TokenSource)
  httpClient : Option HClient
  baseURL : Option URL
  userAgent : String
deriving Repr

/-- `&Client{}`: the zero client `NewClient` starts from. -/
def emptyClientPre : ClientPre :=
  { authenticator := none, httpClient := none, baseURL := none, userAgent := "" }

/-- The `WithAuthenticator` client option. -/
def WithAuthenticator (a : Except GoError TokenSource) : ClientPre → ClientPre :=
  fun c => { c with authenticator := some a }

/-- The default-filling part of `Client.initialize`: default base URL
and user agent when unset.  (Wiring the sub-service views carries no
state and is not modelled.) -/
def initDefaults (c : ClientPre) : ClientPre :=
  let c := if c.baseURL.isNone then { c with baseURL := some defaultBaseURL } else c
  if c.userAgent = "" then { c with userAgent := DefaultUserAgent } else c

/-- Shallow embedding of `Client.initialize` (tado/tado.go).  With no
http client yet, the authenticator's `TokenSource` runs: on error the
code calls `panic(err)`; on success `oauth2.NewClient` builds the
authenticated client.  A nil authenticator would be a nil-pointer
dereference panic (unreachable from `NewClient`, which always fills
it). -/
def clientInit (c : ClientPre) : InitOutcome ClientPre :=
  match c.httpClient with
  | some _ => InitOutcome.ok (initDefaults c)
  | none =>
    match c.authenticator with
    | none => InitOutcome.panicked GoError.nilDereference
    | some (Except.error e) => InitOutcome.panicked e
    | some (Except.ok t) =>
      InitOutcome.ok (initDefaults { c with httpClient := some (HClient.fromTokenSource t) })

/-- Shallow embedding of `NewClient` (tado/tado.go): start from the zero
client, apply the options, fall back to the default device
authenticator (whose `TokenSource` outcome is the `deviceAuth`
parameter — the device-authorization flow is an external, interactive
collaborator), then run `initialize`. -/
def NewClient (deviceAuth : Except GoError TokenSource)
    (opts : List (ClientPre → ClientPre)) : InitOutcome ClientPre :=
  let tc := opts.foldl (fun c o => o c) emptyClientPre
  let tc := if tc.authenticator.isNone then { tc with authenticator := some deviceAuth } else tc
  clientInit tc

/-! ### Concrete fixtures used by witnesses and counterexamples -/

/-- `User{ID: "test-id"}`: the zero `User` with only the ID set. -/
def userTestId : User :=
  { name := "", email := "", username := "", id := "test-id", homes := none, locale := "" }

/-- A client whose base URL path `/api/v2` lacks the trailing slash. -/
def noSlashClient : Client :=
  { baseURL := { scheme := "https", host := "my.tado.com", path := "/api/v2" },
    userAgent := DefaultUserAgent }

/-- A placeholder request for exercising the dispatcher. -/
def dummyReq : Request :=
  { method := "GET", url := defaultBaseURL, body := none, headers := [] }

/-! ## Claim theorems -/

/-- C1: for every HTTP verb, body, option list, and relative path `p`
(one with no leading separator), `NewRequest` called with `p` and
`NewRequest` called with `"/" ++ p` produce requests whose resolved
absolute URL is identical relative to the same configured base URL: the
leading separator is stripped before resolving against the base. -/
theorem newRequest_leading_slash_invariant {β : Type}
    (encode : β → Except GoError String) (c : Client) (method p : String)
    (body : Option β) (opts : List (Request → Request))
    (hrel : strStarts p "/" = false) :
    (NewRequest encode c method p body opts).map (fun r => r.url)
      = (NewRequest encode c method ("/" ++ p) body opts).map (fun r => r.url) := by
  unfold NewRequest
  rw [trimLead_of_not_starts p hrel, trimLead_slash_append p]

/-- Witness for C1 at verb GET, path `foo`, no body, no options, against
the default client. -/
theorem newRequest_leading_slash_invariant_witness :
    strStarts "foo" "/" = false
    ∧ (NewRequest encodeUser defaultClient "GET" "foo" none []).map (fun r => r.url)
      = (NewRequest encodeUser defaultClient "GET" ("/" ++ "foo") none []).map (fun r => r.url) :=
  ⟨by decide,
   newRequest_leading_slash_invariant encodeUser defaultClient "GET" "foo" none [] (by decide)⟩

/-- C2: for every verb, path and body, if the client's base URL path
does not end in `/`, `NewRequest` returns the trailing-slash
configuration error; no request value is produced (and `NewRequest`
performs no network I/O on any path — it is a pure constructor). -/
theorem newRequest_trailing_slash_required {β : Type}
    (encode : β → Except GoError String) (c : Client) (method p : String)
    (body : Option β) (opts : List (Request → Request))
    (h : strEnds c.baseURL.path "/" = false) :
    NewRequest encode c method p body opts
      = Except.error (GoError.baseURLTrailingSlash (urlString c.baseURL)) := by
  unfold NewRequest
  rw [h]
  rfl

/-- Witness for C2: a base URL ending in `/api/v2` fails for a GET with
a body. -/
theorem newRequest_trailing_slash_required_witness :
    strEnds noSlashClient.baseURL.path "/" = false
    ∧ NewRequest encodeUser noSlashClient "GET" "foo" (some userTestId) []
      = Except.error (GoError.baseURLTrailingSlash (urlString noSlashClient.baseURL)) :=
  ⟨by decide,
   newRequest_trailing_slash_required encodeUser noSlashClient "GET" "foo"
     (some userTestId) [] (by decide)⟩

/-- C3: for every request, dispatching with a nil context returns the
distinct `ErrNonNilContext` error and a nil response, and the underlying
HTTP caller is never invoked; the same error and nil response surface
from `Do`. -/
theorem dispatch_nil_context (caller : Request → TransportResult) (req : Request)
    {α : Type} (parse : String → Except String α) (v : DecodeTarget) (v0 : α) :
    bareDo none caller req
      = { response := none, err := some GoError.errNonNilContext, callerInvoked := false }
    ∧ (Do parse none caller req v v0).response = none
    ∧ (Do parse none caller req v v0).err = some GoError.errNonNilContext :=
  ⟨rfl, rfl, rfl⟩

/-- C4: for every request dispatched with a context that is already
done, when the transport call fails the dispatcher returns the context's
own error rather than the raw transport error, with a nil response: the
context check takes precedence over URL normalization and the raw
error. -/
theorem dispatch_done_context_precedence (ctx : Ctx)
    (caller : Request → TransportResult) (req : Request) (e : TransportErr)
    (hdone : ctx.done = true) (herr : (caller req).err = some e) :
    bareDo (some ctx) caller req
      = { response := none, err := some (GoError.ctxError ctx.errKind),
          callerInvoked := true } := by
  simp [bareDo, herr, hdone]

/-- Witness for C4: a deadline-exceeded context and a transport failure
that even carries a response. -/
theorem dispatch_done_context_precedence_witness :
    (Ctx.mk true CtxErr.deadlineExceeded).done = true
    ∧ ((fun (_ : Request) =>
          TransportResult.mk (some (HTTPResponse.mk 500 ""))
            (some (TransportErr.other "network down"))) dummyReq).err
        = some (TransportErr.other "network down")
    ∧ bareDo (some (Ctx.mk true CtxErr.deadlineExceeded))
        (fun (_ : Request) =>
          TransportResult.mk (some (HTTPResponse.mk 500 ""))
            (some (TransportErr.other "network down"))) dummyReq
      = { response := none,
          err := some (GoError.ctxError (Ctx.mk true CtxErr.deadlineExceeded).errKind),
          callerInvoked := true } :=
  ⟨rfl, rfl,
   dispatch_done_context_precedence (Ctx.mk true CtxErr.deadlineExceeded)
     (fun (_ : Request) =>
       TransportResult.mk (some (HTTPResponse.mk 500 ""))
         (some (TransportErr.other "network down")))
     dummyReq (TransportErr.other "network down") rfl rfl⟩

/-- C5: for every dispatched request whose transport call returns a
response without a transport-level error, the dispatcher returns the
wrapped response and a nil error, for every HTTP status code: status
codes are never converted into errors at this layer. -/
theorem dispatch_success_ignores_status (ctx : Ctx)
    (caller : Request → TransportResult) (req : Request) (r : HTTPResponse)
    (hcall : caller req = { res := some r, err := none }) :
    bareDo (some ctx) caller req
      = { response := some (newResponse r), err := none, callerInvoked := true } := by
  simp [bareDo, hcall]

/-- Witness for C5 at status code 503. -/
theorem dispatch_success_ignores_status_witness :
    ((fun (_ : Request) => TransportResult.mk (some (HTTPResponse.mk 503 "oops")) none) dummyReq)
      = { res := some (HTTPResponse.mk 503 "oops"), err := none }
    ∧ bareDo (some (Ctx.mk false CtxErr.canceled))
        (fun (_ : Request) => TransportResult.mk (some (HTTPResponse.mk 503 "oops")) none)
        dummyReq
      = { response := some (newResponse (HTTPResponse.mk 503 "oops")), err := none,
          callerInvoked := true } :=
  ⟨rfl,
   dispatch_success_ignores_status (Ctx.mk false CtxErr.canceled)
     (fun (_ : Request) => TransportResult.mk (some (HTTPResponse.mk 503 "oops")) none)
     dummyReq (HTTPResponse.mk 503 "oops") rfl⟩

/-- C6: for every response whose body is zero-length, `Do` with a typed
decode target returns no error and leaves the target value in its
initial zero state: the EOF from decoding an empty body is suppressed,
not propagated. -/
theorem do_empty_body_typed_target (ctx : Option Ctx)
    (caller : Request → TransportResult) (req : Request)
    {α : Type} (parse : String → Except String α) (v0 : α) (res : Response)
    (hne : (bareDo ctx caller req).err = none)
    (hres : (bareDo ctx caller req).response = some res)
    (hbody : res.response.body = "") :
    (Do parse ctx caller req DecodeTarget.typed v0).err = none
    ∧ (Do parse ctx caller req DecodeTarget.typed v0).target = v0 := by
  constructor <;> simp [Do, BareDo, hne, hres, jsonDecoderDecode, hbody]

/-- Witness for C6: a 204-style empty body decoded into a `Nat` target
whose parser would reject anything. -/
theorem do_empty_body_typed_target_witness :
    (bareDo (some (Ctx.mk false CtxErr.canceled))
        (fun (_ : Request) => TransportResult.mk (some (HTTPResponse.mk 204 "")) none)
        dummyReq).err = none
    ∧ (bareDo (some (Ctx.mk false CtxErr.canceled))
        (fun (_ : Request) => TransportResult.mk (some (HTTPResponse.mk 204 "")) none)
        dummyReq).response = some (Response.mk (HTTPResponse.mk 204 ""))
    ∧ (Response.mk (HTTPResponse.mk 204 "")).response.body = ""
    ∧ ((Do (fun _ => Except.error "reject") (some (Ctx.mk false CtxErr.canceled))
          (fun (_ : Request) => TransportResult.mk (some (HTTPResponse.mk 204 "")) none)
          dummyReq DecodeTarget.typed (0 : Nat)).err = none
       ∧ (Do (fun _ => Except.error "reject") (some (Ctx.mk false CtxErr.canceled))
          (fun (_ : Request) => TransportResult.mk (some (HTTPResponse.mk 204 "")) none)
          dummyReq DecodeTarget.typed (0 : Nat)).target = 0) :=
  ⟨rfl, rfl, rfl,
   do_empty_body_typed_target (some (Ctx.mk false CtxErr.canceled))
     (fun (_ : Request) => TransportResult.mk (some (HTTPResponse.mk 204 "")) none)
     dummyReq (fun _ => Except.error "reject") (0 : Nat)
     (Response.mk (HTTPResponse.mk 204 "")) rfl rfl rfl⟩

/-- C8: for every successfully dispatched response, `Do` closes the
response body exactly once on every exit path: nil target, raw sink,
typed target with a successful decode, the suppressed-EOF case, and a
malformed-JSON decode error alike. -/
theorem do_closes_body_exactly_once (ctx : Option Ctx)
    (caller : Request → TransportResult) (req : Request)
    {α : Type} (parse : String → Except String α) (v : DecodeTarget) (v0 : α)
    (res : Response)
    (hne : (bareDo ctx caller req).err = none)
    (hres : (bareDo ctx caller req).response = some res) :
    (Do parse ctx caller req v v0).bodyCloses = 1 := by
  cases v with
  | nilTarget => simp [Do, BareDo, hne, hres]
  | writer copyErr => simp [Do, BareDo, hne, hres]
  | typed =>
    cases hD : jsonDecoderDecode parse res.response.body with
    | ok a => simp [Do, BareDo, hne, hres, hD]
    | eofReached => simp [Do, BareDo, hne, hres, hD]
    | failed msg => simp [Do, BareDo, hne, hres, hD]

/-- Witness for C8: a malformed-JSON body decoded into a typed target
still closes the body exactly once. -/
theorem do_closes_body_exactly_once_witness :
    (bareDo (some (Ctx.mk false CtxErr.canceled))
        (fun (_ : Request) => TransportResult.mk (some (HTTPResponse.mk 200 "not json")) none)
        dummyReq).err = none
    ∧ (bareDo (some (Ctx.mk false CtxErr.canceled))
        (fun (_ : Request) => TransportResult.mk (some (HTTPResponse.mk 200 "not json")) none)
        dummyReq).response = some (Response.mk (HTTPResponse.mk 200 "not json"))
    ∧ (Do (fun _ => Except.error "invalid character") (some (Ctx.mk false CtxErr.canceled))
        (fun (_ : Request) => TransportResult.mk (some (HTTPResponse.mk 200 "not json")) none)
        dummyReq DecodeTarget.typed (0 : Nat)).bodyCloses = 1 :=
  ⟨rfl, rfl,
   do_closes_body_exactly_once (some (Ctx.mk false CtxErr.canceled))
     (fun (_ : Request) => TransportResult.mk (some (HTTPResponse.mk 200 "not json")) none)
     dummyReq (fun _ => Except.error "invalid character") DecodeTarget.typed (0 : Nat)
     (Response.mk (HTTPResponse.mk 200 "not json")) rfl rfl⟩

/-- C7 counterexample: with the `User` struct as declared in
tado/user.go (plain `json` tags, no `omitempty`), the serialized payload
for `User{ID: "test-id"}` is not the two-byte-field object
`\x7b"id":"test-id"\x7d` plus newline: all six fields are emitted. -/
theorem user_body_not_minimal_payload :
    (NewRequest encodeUser defaultClient "GET" "foo" (some userTestId) []).map (fun r => r.body)
      ≠ Except.ok (some "\x7b\"id\":\"test-id\"\x7d\n") := by decide

/-- C7 amended: for a request built with body value `User{ID: "test-id"}`,
the serialized payload is exactly the JSON object with all six declared
fields (`name`, `email`, `username`, `id`, `homes`, `locale`) in
declaration order followed by a single newline, and JSON encoding applies
no HTML-escaping, so `<`, `>`, `&` in a body field pass through
unescaped. -/
theorem user_body_serialization :
    (NewRequest encodeUser defaultClient "GET" "foo" (some userTestId) []).map (fun r => r.body)
      = Except.ok (some "\x7b\"name\":\"\",\"email\":\"\",\"username\":\"\",\"id\":\"test-id\",\"homes\":null,\"locale\":\"\"\x7d\n")
    ∧ (NewRequest encodeUser defaultClient "GET" "foo"
          (some { userTestId with id := "a<b>&c" }) []).map (fun r => r.body)
      = Except.ok (some "\x7b\"name\":\"\",\"email\":\"\",\"username\":\"\",\"id\":\"a<b>&c\",\"homes\":null,\"locale\":\"\"\x7d\n") :=
  ⟨rfl, rfl⟩

/-- C9: when the configured authenticator's `TokenSource` call fails
during construction, `NewClient` panics with that error rather than
returning it as a result value (its Go return type is only `*Client`;
the `InitOutcome.panicked` constructor is the panic, distinct from
every `InitOutcome.ok` client value) — both for an authenticator
supplied via `WithAuthenticator` and for the default device
authenticator. -/
theorem newClient_panics_on_token_failure (e : GoError)
    (dflt : Except GoError TokenSource) :
    NewClient dflt [WithAuthenticator (Except.error e)] = InitOutcome.panicked e
    ∧ NewClient (Except.error e) [] = InitOutcome.panicked e :=
  ⟨rfl, rfl⟩

/-- C10: when the transport call fails with both a non-nil error and a
non-nil raw response and the supplied context is not yet done, the
dispatcher returns the wrapped response together with the
(URL-normalized) error — both non-nil; the response is not discarded. -/
theorem dispatch_error_keeps_response (ctx : Ctx)
    (caller : Request → TransportResult) (req : Request)
    (r : HTTPResponse) (e : TransportErr)
    (hnd : ctx.done = false)
    (hcall : caller req = { res := some r, err := some e }) :
    bareDo (some ctx) caller req
      = { response := some (newResponse r), err := some (normalizeTransportErr e),
          callerInvoked := true } := by
  simp [bareDo, hcall, hnd]

/-- Witness for C10: a live context, a 502 response and a `*url.Error`
surface together. -/
theorem dispatch_error_keeps_response_witness :
    (Ctx.mk false CtxErr.canceled).done = false
    ∧ ((fun (_ : Request) =>
          TransportResult.mk (some (HTTPResponse.mk 502 ""))
            (some (TransportErr.urlErr "Get" "https://my.tado.com/api/v2/me" "bad gateway"))) dummyReq)
        = { res := some (HTTPResponse.mk 502 ""),
            err := some (TransportErr.urlErr "Get" "https://my.tado.com/api/v2/me" "bad gateway") }
    ∧ bareDo (some (Ctx.mk false CtxErr.canceled))
        (fun (_ : Request) =>
          TransportResult.mk (some (HTTPResponse.mk 502 ""))
            (some (TransportErr.urlErr "Get" "https://my.tado.com/api/v2/me" "bad gateway")))
        dummyReq
      = { response := some (newResponse (HTTPResponse.mk 502 "")),
          err := some (normalizeTransportErr
            (TransportErr.urlErr "Get" "https://my.tado.com/api/v2/me" "bad gateway")),
          callerInvoked := true } :=
  ⟨rfl, rfl,
   dispatch_error_keeps_response (Ctx.mk false CtxErr.canceled)
     (fun (_ : Request) =>
       TransportResult.mk (some (HTTPResponse.mk 502 ""))
         (some (TransportErr.urlErr "Get" "https://my.tado.com/api/v2/me" "bad gateway")))
     dummyReq (HTTPResponse.mk 502 "")
     (TransportErr.urlErr "Get" "https://my.tado.com/api/v2/me" "bad gateway") rfl rfl⟩

end Tado
